import Mathlib

/-!
Shallow embedding of the pi-knight task-dispatch core.

Sources embedded here:
- `src/config.ts` — `KnightConfig` (the fields the dispatch core reads).
- `src/index.ts` — the concurrency scheduler (`activeCount`, `taskQueue`,
  `processTask`, the message loop, `shutdown`).
- `src/nats.ts` (newest revision) — `ParsedTask`, the `subscribe` consumer
  reconciliation and message-intake async iterator, `publishResult`.

The JavaScript event loop is single-threaded, so the scheduler is modelled as
a deterministic transition function over an explicit event alphabet (message
arrival, task completion, termination signal); the intake iterator is modelled
as a trace of the broker-visible operations it performs per message; the
fallible collaborators (the execution engine `executeTask` and the broker
publish) are modelled as oracle parameters returning `Except`.
Wall-clock fields (`duration_ms`, `timestamp`) and the metrics/log
collaborators are not modelled: no claim depends on them.
-/

/-- Runtime configuration, `src/config.ts` `KnightConfig` — restricted to the
fields the dispatch core reads (`metricsPort`, `logLevel`, `hostname`,
`thinkingLevel` are consumed only by out-of-scope collaborators). -/
structure KnightConfig where
  knightName : String
  knightModel : String
  subscribeTopics : List String
  natsUrl : String
  taskTimeoutMs : Nat
  maxConcurrentTasks : Nat
deriving DecidableEq

/-- `src/nats.ts` `interface ParsedTask`. The JS field `from` is named
`fromSender` here (`from` is a Lean keyword). -/
structure ParsedTask where
  task : String
  taskId : String
  domain : Option String := none
  fromSender : Option String := none
  dispatchedBy : Option String := none
  timestamp : Option String := none
  timeoutMs : Option Nat := none
deriving DecidableEq

/-- An entry of `taskQueue` in `src/index.ts` `main`:
`{ task: string; taskId: string; timeoutMs?: number }`. -/
structure QueueEntry where
  task : String
  taskId : String
  timeoutMs : Option Nat
deriving DecidableEq

/-- One in-flight `processTask` invocation (the spec's ActiveTaskSlot): the
arguments `processTask(taskText, taskId, timeoutMs)` of a call that has been
started and has not yet run its `finally` block. `activeCount` in
`src/index.ts` equals the number of such slots. -/
structure ActiveSlot where
  task : String
  taskId : String
  timeoutMs : Nat
deriving DecidableEq

/-- The scheduler's mutable state in `src/index.ts` `main` (`activeCount` is
represented as `active.length`), extended with three write-only ghost traces
used to state ordering properties: `dispatched` (taskIds handed to
`processTask`, in call order), `enqueued` (taskIds pushed onto `taskQueue`, in
push order), `dequeued` (taskIds shifted off `taskQueue`, in shift order). -/
structure SchedState where
  active : List ActiveSlot
  queue : List QueueEntry
  shuttingDown : Bool
  dispatched : List String
  enqueued : List String
  dequeued : List String
deriving DecidableEq

/-- Initial scheduler state: `activeCount = 0`, empty `taskQueue`,
`shuttingDown = false`. -/
def schedInit : SchedState :=
  { active := [], queue := [], shuttingDown := false,
    dispatched := [], enqueued := [], dequeued := [] }

/-- The scheduler's event alphabet. `arrive p`: the message loop receives a
parsed task from the intake iterator. `complete i`: the `i`-th in-flight
`processTask` reaches its `finally` block (completion order is arbitrary, so
`i` is arbitrary; an out-of-range `i` corresponds to no real event and is a
no-op). `sigterm`: a termination signal runs `shuttingDown = true`. -/
inductive SchedEvent where
  | arrive (p : ParsedTask)
  | complete (i : Nat)
  | sigterm
deriving DecidableEq

/-- One step of the scheduler, translated from `src/index.ts`:

`arrive`: the message loop body — `if (shuttingDown) break;` then
`const timeoutMs = parsed.timeoutMs ?? config.taskTimeoutMs;` then
`if (activeCount >= config.maxConcurrentTasks)` push onto `taskQueue`
else call `processTask` (which increments `activeCount`).

`complete`: the `finally` block of `processTask` — `activeCount--;` then
`if (taskQueue.length > 0 && activeCount < config.maxConcurrentTasks)`
shift the queue head and call
`processTask(next.task, next.taskId, next.timeoutMs ?? config.taskTimeoutMs)`.
Note the `finally` block does not consult `shuttingDown`.

`sigterm`: `shuttingDown = true` (the wait loop itself is modelled by
`drainPoll` below). -/
def schedStep (cfg : KnightConfig) (s : SchedState) : SchedEvent → SchedState
  | SchedEvent.arrive p =>
    if s.shuttingDown then s
    else
      let timeoutMs := p.timeoutMs.getD cfg.taskTimeoutMs
      if cfg.maxConcurrentTasks ≤ s.active.length then
        { s with queue := s.queue ++ [⟨p.task, p.taskId, some timeoutMs⟩],
                 enqueued := s.enqueued ++ [p.taskId] }
      else
        { s with active := s.active ++ [⟨p.task, p.taskId, timeoutMs⟩],
                 dispatched := s.dispatched ++ [p.taskId] }
  | SchedEvent.complete i =>
    if i < s.active.length then
      let active1 := s.active.eraseIdx i
      match s.queue with
      | next :: rest =>
        if active1.length < cfg.maxConcurrentTasks then
          { s with active := active1 ++ [⟨next.task, next.taskId, next.timeoutMs.getD cfg.taskTimeoutMs⟩],
                   queue := rest,
                   dispatched := s.dispatched ++ [next.taskId],
                   dequeued := s.dequeued ++ [next.taskId] }
        else { s with active := active1 }
      | [] => { s with active := active1 }
    else s
  | SchedEvent.sigterm => { s with shuttingDown := true }

/-- The scheduler state after an arbitrary event sequence from startup. -/
def schedRun (cfg : KnightConfig) (events : List SchedEvent) : SchedState :=
  events.foldl (schedStep cfg) schedInit

/-- The optional fields the intake reads off a successfully `JSON.parse`d
payload (`src/nats.ts` `subscribe` iterator). A field absent from the JSON
object (or a non-object payload such as a bare number) is `none`; note that an
explicitly empty string is `some ""` — JS `??` falls back only on
null/undefined. `fromField`/`payload_from` model `json.from` and
`json.payload?.from`; `dispatchedByAlias` models the camel-case field
`dispatchedBy`; `metadata_timeout_ms`/`metadata_timeoutMs` model
`json.metadata?.timeout_ms` and `json.metadata?.timeoutMs`. -/
structure TaskJson where
  task : Option String := none
  description : Option String := none
  message : Option String := none
  task_id : Option String := none
  taskId : Option String := none
  domain : Option String := none
  fromField : Option String := none
  payload_from : Option String := none
  dispatched_by : Option String := none
  dispatchedByAlias : Option String := none
  timestamp : Option String := none
  metadata_timeout_ms : Option Nat := none
  metadata_timeoutMs : Option Nat := none
deriving DecidableEq

/-- Whether `JSON.parse(raw)` succeeds, and if so which fields it yields. -/
inductive MsgBody where
  | json (j : TaskJson)
  | notJson
deriving DecidableEq

/-- A consumed broker message: its subject, its decoded payload text
(`sc.decode(msg.data)`), and the outcome of `JSON.parse` on that text. -/
structure RawMsg where
  subject : String
  raw : String
  body : MsgBody
deriving DecidableEq

/-- The decode step of the intake iterator (`src/nats.ts` `subscribe`):
`subjectTaskId` is the trailing dot-separated segment of the subject
(`subject.split(".")` never yields an empty array, so the `?? "unknown"`
fallback never fires — `getD` keeps it anyway, faithfully); on JSON success
the `??`-alias chains resolve each field; on JSON failure the whole raw
payload is the task text. -/
def parseMsg (m : RawMsg) : ParsedTask :=
  let subjectParts := m.subject.splitOn "."
  let subjectTaskId := subjectParts.getLast?.getD "unknown"
  match m.body with
  | MsgBody.json j =>
    { task := j.task.getD (j.description.getD (j.message.getD m.raw)),
      taskId := j.task_id.getD (j.taskId.getD subjectTaskId),
      domain := j.domain,
      fromSender := j.fromField.orElse fun _ => j.payload_from,
      dispatchedBy := j.dispatched_by.orElse fun _ => j.dispatchedByAlias,
      timestamp := j.timestamp,
      timeoutMs := j.metadata_timeout_ms.orElse fun _ => j.metadata_timeoutMs }
  | MsgBody.notJson =>
    { task := m.raw, taskId := subjectTaskId }

/-- The empty-task guard of the intake iterator:
`if (!parsed.task || parsed.task.trim().length === 0)` — JS treats the empty
string as falsy, so the first disjunct is `task == ""`. -/
def isEmptyTask (p : ParsedTask) : Bool :=
  p.task == "" || p.task.trim.length == 0

/-- The broker-visible / pipeline-visible operations the intake iterator
performs on one message, tagged with the message's position in delivery
order: `ack` is `msg.ack()`; `decode` is the payload decode + parse
(task logic); `drop` is the empty-task `continue`; `yieldTask` hands the
task to the scheduler's message loop. -/
inductive IntakeEv where
  | ack (idx : Nat)
  | decode (idx : Nat) (p : ParsedTask)
  | drop (idx : Nat)
  | yieldTask (idx : Nat) (p : ParsedTask)
deriving DecidableEq

/-- The message position an intake event concerns. -/
def IntakeEv.msgIdx : IntakeEv → Nat
  | IntakeEv.ack i => i
  | IntakeEv.decode i _ => i
  | IntakeEv.drop i => i
  | IntakeEv.yieldTask i _ => i

/-- Everything the iterator body does to message `idx` after the ack:
decode/parse, then either drop (empty task) or yield. -/
def processMsgRest (idx : Nat) (m : RawMsg) : List IntakeEv :=
  let p := parseMsg m
  IntakeEv.decode idx p ::
    (if isEmptyTask p then [IntakeEv.drop idx] else [IntakeEv.yieldTask idx p])

/-- The full per-message trace of the iterator body (`src/nats.ts`
`subscribe`): `msg.ack()` runs first — before the decode, the empty check,
and the yield. -/
def processMsgEvents (idx : Nat) (m : RawMsg) : List IntakeEv :=
  IntakeEv.ack idx :: processMsgRest idx m

/-- Trace of the intake iterator over a message list, numbering messages from
`k` (the `for await` loop processes messages one at a time, in delivery
order). -/
def intakeTraceFrom (k : Nat) : List RawMsg → List IntakeEv
  | [] => []
  | m :: ms => processMsgEvents k m ++ intakeTraceFrom (k + 1) ms

/-- Trace of the intake iterator over a delivery sequence. -/
def intakeTrace (msgs : List RawMsg) : List IntakeEv :=
  intakeTraceFrom 0 msgs

/-- The tasks the intake yields to the scheduler, read off the trace. -/
def intakeYields (msgs : List RawMsg) : List ParsedTask :=
  (intakeTrace msgs).filterMap fun e =>
    match e with
    | IntakeEv.yieldTask _ p => some p
    | _ => none

/-- Output of the execution engine `executeTask` (`src/knight.ts`
`TaskResult`), consumed opaquely by `processTask`. The JS floating-point
`cost` is modelled as a rational. -/
structure TaskResult where
  result : String
  cost : ℚ
  tokens_input : Nat
  tokens_output : Nat
  model : String
  toolCalls : Nat
deriving DecidableEq

/-- The result message `processTask` hands to `publishResult` (spec's
ResultRecord). `tool_calls` is `none` on the failure record — the failure
object literal in `src/index.ts` omits the field. Wall-clock fields
(`duration_ms`, `timestamp`) are not modelled. -/
structure ResultRecord where
  task_id : String
  knight : String
  success : Bool
  result : String
  cost : ℚ
  tokens_input : Nat
  tokens_output : Nat
  model : String
  tool_calls : Option Nat
deriving DecidableEq

/-- The success record built in the `try` block of `processTask`. -/
def successRecord (cfg : KnightConfig) (taskId : String) (r : TaskResult) : ResultRecord :=
  { task_id := taskId, knight := cfg.knightName, success := true,
    result := r.result, cost := r.cost,
    tokens_input := r.tokens_input, tokens_output := r.tokens_output,
    model := r.model, tool_calls := some r.toolCalls }

/-- The failure record built in the `catch` block of `processTask`:
`success: false`, ``result: `Task failed: ${errMsg}` ``, `cost: 0`,
`tokens: { input: 0, output: 0 }`, `model: config.knightModel`, and no
`tool_calls` field. -/
def failureRecord (cfg : KnightConfig) (taskId : String) (errMsg : String) : ResultRecord :=
  { task_id := taskId, knight := cfg.knightName, success := false,
    result := "Task failed: " ++ errMsg, cost := 0,
    tokens_input := 0, tokens_output := 0,
    model := cfg.knightModel, tool_calls := none }

/-- The try/catch body of `processTask` (`src/index.ts`), with its two
fallible collaborators as oracles: `exec` is the awaited outcome of
`executeTask` (a timeout abort surfaces here as a rejection), `pub` is the
outcome of each `publishResult` call. The returned list is the sequence of
`publishResult` calls the body issues, in order; a returned `Except.error`
would be an exception escaping `processTask` to the scheduler (never
produced — claim C8). Control flow: on `exec` success the success record is
published inside `try`, so a rejected publish falls into `catch`, which
builds a failure record from the rejection message and publishes it with a
`.catch` handler that swallows any further rejection; on `exec` failure the
`catch` block publishes the failure record, again under `.catch`. -/
def processTaskRun (cfg : KnightConfig) (taskId : String)
    (exec : Except String TaskResult) (pub : ResultRecord → Except String Unit) :
    Except String (List ResultRecord) :=
  match exec with
  | Except.ok r =>
    let r1 := successRecord cfg taskId r
    match pub r1 with
    | Except.ok _ => Except.ok [r1]
    | Except.error e => Except.ok [r1, failureRecord cfg taskId e]
  | Except.error e => Except.ok [failureRecord cfg taskId e]

/-- The `publishResult` calls `processTask` issues for one task. -/
def publishCalls (cfg : KnightConfig) (taskId : String)
    (exec : Except String TaskResult) (pub : ResultRecord → Except String Unit) :
    List ResultRecord :=
  match processTaskRun cfg taskId exec pub with
  | Except.ok l => l
  | Except.error _ => []

/-- End-to-end publishes of the pipeline: every task the intake yields is
processed by `processTask`, each contributing its publish calls. -/
def pipelinePublishes (cfg : KnightConfig)
    (exec : ParsedTask → Except String TaskResult)
    (pub : ResultRecord → Except String Unit) (msgs : List RawMsg) :
    List ResultRecord :=
  (intakeYields msgs).flatMap fun p => publishCalls cfg p.taskId (exec p) pub

/-- JetStream delivery policies (the reconciler only ever compares against
`new`). -/
inductive DeliverPolicy where
  | all
  | last
  | new
  | byStartSequence
  | byStartTime
  | lastPerSubject
deriving DecidableEq

/-- JetStream acknowledgment policies. -/
inductive AckPolicy where
  | explicit
  | all
  | notRequired
deriving DecidableEq

/-- The fields of `existing.config` that `subscribe` reads from
`jsm.consumers.info("fleet_a_tasks", durableName)`. -/
structure ConsumerConfigInfo where
  durable_name : String
  filter_subjects : Option (List String)
  filter_subject : Option String
  ack_policy : AckPolicy
  deliver_policy : DeliverPolicy
  max_deliver : Int
  ack_wait : Nat
deriving DecidableEq

/-- The desired consumer configuration object built in `subscribe`
(`src/nats.ts`, newest revision): explicit ack, deliver-new, `max_deliver: 1`,
`ack_wait: (config.taskTimeoutMs + 60_000) * 1_000_000` nanoseconds. -/
structure DesiredConsumerConfig where
  durable_name : String
  filter_subjects : List String
  ack_policy : AckPolicy
  deliver_policy : DeliverPolicy
  max_deliver : Int
  ack_wait : Nat
deriving DecidableEq

/-- `desiredConfig` as computed by `subscribe` from the runtime config. -/
def desiredConsumerConfig (cfg : KnightConfig) : DesiredConsumerConfig :=
  { durable_name := cfg.knightName ++ "-consumer",
    filter_subjects := cfg.subscribeTopics,
    ack_policy := AckPolicy.explicit,
    deliver_policy := DeliverPolicy.new,
    max_deliver := 1,
    ack_wait := (cfg.taskTimeoutMs + 60000) * 1000000 }

/-- Insertion of one string into a sorted list, for `Array.prototype.sort`. -/
def insertSorted (x : String) : List String → List String
  | [] => [x]
  | y :: ys => if x ≤ y then x :: y :: ys else y :: insertSorted x ys

/-- `[...arr].sort()` on a string array. Only equality of sorted outputs
matters to the reconciler, so the particular sorting algorithm is
irrelevant as long as both sides use the same one. -/
def sortStrings (l : List String) : List String :=
  l.foldr insertSorted []

/-- `existing.config.filter_subjects ?? (existing.config.filter_subject ?
[existing.config.filter_subject] : [])` — note the second fallback uses JS
truthiness, so an empty-string `filter_subject` yields `[]`. -/
def existingFilterList (ex : ConsumerConfigInfo) : List String :=
  ex.filter_subjects.getD
    (match ex.filter_subject with
     | some f => if f == "" then [] else [f]
     | none => [])

/-- The `needsRecreate` predicate of `subscribe`: the sorted filter lists
differ (`JSON.stringify` equality of sorted string arrays is list equality),
or the delivery policy is not deliver-new, or `max_deliver` is not 1, or
`ack_wait` is not `(config.taskTimeoutMs + 60_000) * 1_000_000`. -/
def needsRecreate (cfg : KnightConfig) (ex : ConsumerConfigInfo) : Bool :=
  (sortStrings (existingFilterList ex) != sortStrings cfg.subscribeTopics) ||
  (ex.deliver_policy != DeliverPolicy.new) ||
  (ex.max_deliver != 1) ||
  (ex.ack_wait != (cfg.taskTimeoutMs + 60000) * 1000000)

/-- Destructive / creating JetStream-management calls `subscribe` issues. -/
inductive NatsOp where
  | deleteConsumer (stream durable : String)
  | addConsumer (stream : String) (cfg : DesiredConsumerConfig)
deriving DecidableEq

/-- The management calls one `subscribe` run issues against the broker,
given the broker's answer to `consumers.info` (`none` models the call
throwing because the consumer does not exist). Translated from `subscribe`:
inside `try`, a present consumer is deleted exactly when `needsRecreate`;
afterwards `jsm.consumers.add("fleet_a_tasks", desiredConfig)` runs
unconditionally. -/
def subscribeOps (cfg : KnightConfig) (existing : Option ConsumerConfigInfo) : List NatsOp :=
  let d := desiredConsumerConfig cfg
  (match existing with
   | some ex =>
     if needsRecreate cfg ex then [NatsOp.deleteConsumer "fleet_a_tasks" d.durable_name]
     else []
   | none => []) ++ [NatsOp.addConsumer "fleet_a_tasks" d]

/-- Recognizes a `consumers.add` call. -/
def isAddOp : NatsOp → Bool
  | NatsOp.addConsumer _ _ => true
  | _ => false

/-- Recognizes a `consumers.delete` call. -/
def isDeleteOp : NatsOp → Bool
  | NatsOp.deleteConsumer _ _ => true
  | _ => false

/-- Broker model for the idempotence claim: after `consumers.add(spec)`
succeeds with no further drift, `consumers.info` reports exactly the added
configuration (`filter_subjects` populated, legacy `filter_subject` unset). -/
def consumerInfoAfterAdd (d : DesiredConsumerConfig) : ConsumerConfigInfo :=
  { durable_name := d.durable_name,
    filter_subjects := some d.filter_subjects,
    filter_subject := none,
    ack_policy := d.ack_policy,
    deliver_policy := d.deliver_policy,
    max_deliver := d.max_deliver,
    ack_wait := d.ack_wait }

/-- The shutdown wait loop of `src/index.ts`:
`while (activeCount > 0 && Date.now() - start < maxWait) await sleep(1000)`
with `maxWait = 60_000`, polled once per second. `a t` is `activeCount` at
the `t`-th poll (elapsed time `1000 * t` ms). `fuel` bounds the recursion;
the guard caps `t` below 60, so any fuel above 60 is never exhausted
(lemma `drainPoll_spec`). -/
def drainPoll (a : Nat → Nat) : Nat → Nat → Nat
  | 0, t => t
  | fuel + 1, t =>
    if a t ≠ 0 ∧ 1000 * t < 60000 then drainPoll a fuel (t + 1) else t

/-- The poll index at which the wait loop exits. -/
def shutdownExit (a : Nat → Nat) : Nat :=
  drainPoll a 61 0

/-- `if (activeCount > 0) log.warn("Forcing shutdown with active tasks", …)`
after the wait loop. -/
def shutdownWarned (a : Nat → Nat) : Bool :=
  decide (0 < a (shutdownExit a))

/-- Concrete runtime configuration used by the witnesses (defaults of
`src/config.ts` with a two-topic subscription). -/
def sampleConfig : KnightConfig :=
  { knightName := "galahad",
    knightModel := "anthropic/claude-sonnet-4-5",
    subscribeTopics := ["fleet-a.tasks.galahad", "fleet-a.tasks.all"],
    natsUrl := "nats://nats.database.svc.cluster.local:4222",
    taskTimeoutMs := 1800000,
    maxConcurrentTasks := 2 }

/-- The payload of spec Scenario 2: `{"task":"","task_id":"x1"}` delivered on
a task subject. `JSON.parse` succeeds; `task` is the empty string. -/
def msgEmptyX1 : RawMsg :=
  { subject := "fleet-a.tasks.galahad",
    raw := "\x7b\"task\":\"\",\"task_id\":\"x1\"\x7d",
    body := MsgBody.json { task := some "", task_id := some "x1" } }

/-- A well-formed one-task message used by the intake witnesses. -/
def msgHello : RawMsg :=
  { subject := "fleet-a.tasks.galahad",
    raw := "\x7b\"task\":\"say hello\",\"task_id\":\"t42\"\x7d",
    body := MsgBody.json { task := some "say hello", task_id := some "t42" } }

/-- A concrete engine result used by the executor witnesses. -/
def sampleResult : TaskResult :=
  { result := "hello", cost := 0, tokens_input := 12, tokens_output := 5,
    model := "anthropic/claude-sonnet-4-5", toolCalls := 0 }

/-- A publish oracle that always succeeds. -/
def pubAlwaysOk : ResultRecord → Except String Unit :=
  fun _ => Except.ok ()

/-- A publish oracle that always rejects (broker unavailable). -/
def pubAlwaysRejects : ResultRecord → Except String Unit :=
  fun _ => Except.error "nats publish failed"

/-- An execution oracle that succeeds on every task. -/
def execAlwaysOk : ParsedTask → Except String TaskResult :=
  fun _ => Except.ok sampleResult

/-- An existing consumer with `max_deliver = 5` but otherwise matching
`sampleConfig`'s desired spec — spec Scenario 3. -/
def staleConsumerInfo : ConsumerConfigInfo :=
  { durable_name := "galahad-consumer",
    filter_subjects := some ["fleet-a.tasks.galahad", "fleet-a.tasks.all"],
    filter_subject := none,
    ack_policy := AckPolicy.explicit,
    deliver_policy := DeliverPolicy.new,
    max_deliver := 5,
    ack_wait := (1800000 + 60000) * 1000000 }

/-- Activity profile of spec Scenario 5: three tasks in flight at the
shutdown signal, all finished by the 10th poll. -/
def drainProfile : Nat → Nat :=
  fun t => if t < 10 then 3 else 0

/-- A scheduler state mid-drain used by the C10 witness: one task executing,
one task queued, shutdown flag already set. -/
def drainingState : SchedState :=
  { active := [⟨"long job", "a1", 1800000⟩],
    queue := [⟨"queued job", "q1", some 1800000⟩],
    shuttingDown := true,
    dispatched := ["a1"],
    enqueued := ["q1"],
    dequeued := [] }

/-! ### Scheduler lemmas -/

/-- One scheduler step preserves the capacity bound `activeCount ≤
maxConcurrentTasks`: the message loop dispatches only below capacity, and the
completion handler re-dispatches only after its decrement re-opens capacity. -/
theorem schedStep_preserves_active_le (cfg : KnightConfig) (s : SchedState) (e : SchedEvent)
    (h : s.active.length ≤ cfg.maxConcurrentTasks) :
    ((schedStep cfg s e).active).length ≤ cfg.maxConcurrentTasks := by
  cases e with
  | arrive p =>
    simp only [schedStep]
    split
    · exact h
    · split
      · exact h
      · rename_i hcap
        simp only [List.length_append, List.length_cons, List.length_nil]
        omega
  | complete i =>
    simp only [schedStep]
    split
    · split
      · split
        · rename_i hlt
          simp only [List.length_append, List.length_cons, List.length_nil]
          omega
        · exact le_trans (List.length_eraseIdx_le _ _) h
      · exact le_trans (List.length_eraseIdx_le _ _) h
    · exact h
  | sigterm => exact h

/-- One scheduler step preserves the queue-accounting invariant: the taskIds
ever pushed onto `taskQueue` are exactly the taskIds already shifted off (in
shift order) followed by the current queue content (in order) — `push`
appends at the tail and the completion handler shifts the head. -/
theorem schedStep_preserves_fifo (cfg : KnightConfig) (s : SchedState) (e : SchedEvent)
    (h : s.enqueued = s.dequeued ++ s.queue.map QueueEntry.taskId) :
    (schedStep cfg s e).enqueued =
      (schedStep cfg s e).dequeued ++ ((schedStep cfg s e).queue.map QueueEntry.taskId) := by
  cases e with
  | arrive p =>
    simp only [schedStep]
    split
    · exact h
    · split
      · simp [h]
      · exact h
  | complete i =>
    simp only [schedStep]
    split
    · split
      · rename_i next rest hq
        split
        · simp [h, hq]
        · exact h
      · exact h
    · exact h
  | sigterm => exact h

/-- Claim C1: for every configuration and every sequence of task arrivals,
completions and signals, the scheduler's `activeCount` (number of in-flight
`processTask` invocations) never exceeds `config.maxConcurrentTasks`:
`processTask` is started from the message loop only when
`activeCount < maxConcurrentTasks`, and from a completion only after the
decrement re-opened capacity. -/
theorem sched_activeCount_le_max (cfg : KnightConfig) (events : List SchedEvent) :
    ((schedRun cfg events).active).length ≤ cfg.maxConcurrentTasks := by
  suffices h : ∀ s : SchedState, s.active.length ≤ cfg.maxConcurrentTasks →
      ((events.foldl (schedStep cfg) s).active).length ≤ cfg.maxConcurrentTasks by
    exact h schedInit (by simp [schedInit])
  induction events with
  | nil => intro s hs; exact hs
  | cons e es ih =>
    intro s hs
    exact ih _ (schedStep_preserves_active_le cfg s e hs)

/-- Claim C2: the overflow queue is FIFO — after any event sequence (any
arrival order, any completion order), the taskIds ever pushed onto
`taskQueue` equal the taskIds dispatched out of the queue, in dispatch
order, followed by the still-queued taskIds, in order. In particular the
dispatch-from-queue order is always a prefix of the arrival (enqueue) order,
regardless of which completions freed the capacity. -/
theorem sched_queue_fifo (cfg : KnightConfig) (events : List SchedEvent) :
    (schedRun cfg events).enqueued =
      (schedRun cfg events).dequeued ++
        ((schedRun cfg events).queue.map QueueEntry.taskId) := by
  suffices h : ∀ s : SchedState, s.enqueued = s.dequeued ++ s.queue.map QueueEntry.taskId →
      (events.foldl (schedStep cfg) s).enqueued =
        (events.foldl (schedStep cfg) s).dequeued ++
          ((events.foldl (schedStep cfg) s).queue.map QueueEntry.taskId) by
    exact h schedInit (by simp [schedInit])
  induction events with
  | nil => intro s hs; exact hs
  | cons e es ih =>
    intro s hs
    exact ih _ (schedStep_preserves_fifo cfg s e hs)

/-- Claim C10: after the shutdown flag is set, tasks already held in the FIFO
queue are still dispatched into execution — the completion handler's
re-dispatch (the `finally` block) never consults `shuttingDown`, so when a
task completes while the queue is non-empty, the queue head starts executing
during the Draining phase, and `activeCount` does not drop (the drain, whose
wait loop observes only `activeCount`, is thereby extended). -/
theorem sched_completion_dispatches_during_drain (cfg : KnightConfig) (s : SchedState)
    (i : Nat) (next : QueueEntry) (rest : List QueueEntry)
    (hsd : s.shuttingDown = true) (hq : s.queue = next :: rest)
    (hi : i < s.active.length) (hle : s.active.length ≤ cfg.maxConcurrentTasks) :
    (schedStep cfg s (SchedEvent.complete i)).active =
        s.active.eraseIdx i ++ [⟨next.task, next.taskId, next.timeoutMs.getD cfg.taskTimeoutMs⟩] ∧
    (schedStep cfg s (SchedEvent.complete i)).queue = rest ∧
    (schedStep cfg s (SchedEvent.complete i)).dispatched = s.dispatched ++ [next.taskId] ∧
    (schedStep cfg s (SchedEvent.complete i)).shuttingDown = true ∧
    ((schedStep cfg s (SchedEvent.complete i)).active).length = s.active.length := by
  have hlen : (s.active.eraseIdx i).length = s.active.length - 1 :=
    List.length_eraseIdx_of_lt hi
  have hlt : (s.active.eraseIdx i).length < cfg.maxConcurrentTasks := by omega
  refine ⟨?_, ?_, ?_, ?_, ?_⟩
  · simp [schedStep, hq, hi, hlt]
  · simp [schedStep, hq, hi, hlt]
  · simp [schedStep, hq, hi, hlt]
  · simp [schedStep, hq, hi, hlt, hsd]
  · simp only [schedStep, hq, if_pos hi, if_pos hlt, List.length_append,
      List.length_cons, List.length_nil]
    omega

/-- Witness for C10 at a concrete mid-drain state: `shuttingDown` is set, one
task is executing, one is queued; the completion of the active task
dispatches the queued task `q1` and leaves `activeCount` unchanged. -/
theorem sched_completion_dispatches_during_drain_witness :
    drainingState.shuttingDown = true ∧
    drainingState.queue = ⟨"queued job", "q1", some 1800000⟩ :: [] ∧
    0 < drainingState.active.length ∧
    drainingState.active.length ≤ sampleConfig.maxConcurrentTasks ∧
    (schedStep sampleConfig drainingState (SchedEvent.complete 0)).dispatched =
      drainingState.dispatched ++ ["q1"] ∧
    (schedStep sampleConfig drainingState (SchedEvent.complete 0)).queue = [] ∧
    ((schedStep sampleConfig drainingState (SchedEvent.complete 0)).active).length =
      drainingState.active.length := by
  have h := sched_completion_dispatches_during_drain sampleConfig drainingState 0
    ⟨"queued job", "q1", some 1800000⟩ [] (by decide) (by decide) (by decide) (by decide)
  exact ⟨by decide, by decide, by decide, by decide, h.2.2.1, h.2.1, h.2.2.2.2⟩

/-! ### Intake lemmas -/

/-- Every event of the per-message trace concerns that message. -/
theorem msgIdx_of_mem_processMsgEvents {e : IntakeEv} {k : Nat} {m : RawMsg}
    (h : e ∈ processMsgEvents k m) : e.msgIdx = k := by
  simp only [processMsgEvents, processMsgRest, List.mem_cons] at h
  rcases h with h | h | h
  · subst h; rfl
  · subst h; rfl
  · split at h <;> simp only [List.mem_singleton] at h <;> subst h <;> rfl

/-- Nothing the iterator body does after the ack is itself an ack. -/
theorem no_ack_in_processMsgRest {e : IntakeEv} {k : Nat} {m : RawMsg}
    (h : e ∈ processMsgRest k m) : ∀ j, e ≠ IntakeEv.ack j := by
  intro j
  simp only [processMsgRest, List.mem_cons] at h
  rcases h with h | h
  · subst h; simp
  · split at h <;> simp only [List.mem_singleton] at h <;> subst h <;> simp

/-- Every event of a trace starting at message `k` concerns message `k` or a
later one. -/
theorem le_msgIdx_of_mem_intakeTraceFrom {e : IntakeEv} :
    ∀ {msgs : List RawMsg} {k : Nat}, e ∈ intakeTraceFrom k msgs → k ≤ e.msgIdx := by
  intro msgs
  induction msgs with
  | nil => intro k h; simp [intakeTraceFrom] at h
  | cons m ms ih =>
    intro k h
    simp only [intakeTraceFrom, List.mem_append] at h
    rcases h with h | h
    · exact le_of_eq (msgIdx_of_mem_processMsgEvents h).symm
    · exact le_trans (Nat.le_succ k) (ih h)

/-- Every event of a trace over `msgs` starting at message `k` concerns a
message before `k + msgs.length`. -/
theorem msgIdx_lt_of_mem_intakeTraceFrom {e : IntakeEv} :
    ∀ {msgs : List RawMsg} {k : Nat}, e ∈ intakeTraceFrom k msgs →
      e.msgIdx < k + msgs.length := by
  intro msgs
  induction msgs with
  | nil => intro k h; simp [intakeTraceFrom] at h
  | cons m ms ih =>
    intro k h
    simp only [intakeTraceFrom, List.mem_append] at h
    rcases h with h | h
    · have := msgIdx_of_mem_processMsgEvents h
      simp only [List.length_cons]
      omega
    · have := ih h
      simp only [List.length_cons]
      simp only [List.length_cons] at this
      omega

/-- The intake trace splits at a list split. -/
theorem intakeTraceFrom_append (xs ys : List RawMsg) :
    ∀ k, intakeTraceFrom k (xs ++ ys) =
      intakeTraceFrom k xs ++ intakeTraceFrom (k + xs.length) ys := by
  induction xs with
  | nil => intro k; simp [intakeTraceFrom]
  | cons m ms ih =>
    intro k
    have e1 : intakeTraceFrom k ((m :: ms) ++ ys) =
        processMsgEvents k m ++ intakeTraceFrom (k + 1) (ms ++ ys) := rfl
    have e2 : intakeTraceFrom k (m :: ms) =
        processMsgEvents k m ++ intakeTraceFrom (k + 1) ms := rfl
    rw [e1, e2, ih (k + 1), List.append_assoc,
      show k + 1 + ms.length = k + (m :: ms).length from by
        simp only [List.length_cons]; omega]

/-- For every in-range message position there is exactly one ack in the
trace, and nothing concerning that message precedes it. -/
theorem intake_ack_aux :
    ∀ (msgs : List RawMsg) (k idx : Nat), k ≤ idx → idx < k + msgs.length →
    ∃ pre rest, intakeTraceFrom k msgs = pre ++ IntakeEv.ack idx :: rest ∧
      (∀ e ∈ pre, e.msgIdx ≠ idx) ∧ (∀ e ∈ rest, e ≠ IntakeEv.ack idx) := by
  intro msgs
  induction msgs with
  | nil =>
    intro k idx h1 h2
    simp only [List.length_nil] at h2
    omega
  | cons m ms ih =>
    intro k idx h1 h2
    rcases Nat.eq_or_lt_of_le h1 with heq | hlt
    · subst heq
      refine ⟨[], processMsgRest k m ++ intakeTraceFrom (k + 1) ms, ?_, ?_, ?_⟩
      · simp [intakeTraceFrom, processMsgEvents]
      · intro e he; simp at he
      · intro e he
        rcases List.mem_append.mp he with h | h
        · exact no_ack_in_processMsgRest h _
        · intro hack
          have hle := le_msgIdx_of_mem_intakeTraceFrom h
          rw [hack] at hle
          simp only [IntakeEv.msgIdx] at hle
          omega
    · obtain ⟨pre, rest, htr, hpre, hrest⟩ :=
        ih (k + 1) idx hlt (by simp only [List.length_cons] at h2; omega)
      refine ⟨processMsgEvents k m ++ pre, rest, ?_, ?_, hrest⟩
      · simp only [intakeTraceFrom, htr, List.append_assoc]
      · intro e he
        rcases List.mem_append.mp he with h | h
        · have := msgIdx_of_mem_processMsgEvents h
          omega
        · exact hpre e h

/-- The per-message block of an empty-task message yields nothing: the
iterator body acks, decodes, and `continue`s. -/
theorem yield_notMem_processMsgEvents_of_empty {p : ParsedTask} {k j : Nat} {m : RawMsg}
    (he : isEmptyTask (parseMsg m) = true) :
    IntakeEv.yieldTask j p ∉ processMsgEvents k m := by
  simp [processMsgEvents, processMsgRest, he]

/-- Claim C3: for every consumed message, the intake trace contains exactly
one acknowledgment of that message, and the acknowledgment strictly precedes
every other operation on that message — in particular the decode/parse, the
empty-task check, and the yield that starts task logic (execution can only
follow the yield). Concretely: the trace splits as
`pre ++ ack idx :: rest` where no event of `pre` concerns message `idx`
(so all task logic on it is in `rest`) and `rest` contains no further ack of
`idx`. -/
theorem intake_ack_once_before_task_logic (msgs : List RawMsg) (idx : Nat)
    (h : idx < msgs.length) :
    ∃ pre rest, intakeTrace msgs = pre ++ IntakeEv.ack idx :: rest ∧
      (∀ e ∈ pre, e.msgIdx ≠ idx) ∧ (∀ e ∈ rest, e ≠ IntakeEv.ack idx) :=
  intake_ack_aux msgs 0 idx (Nat.zero_le idx) (by simpa using h)

/-- Witness for C3 on a concrete two-message delivery: the second message
(position 1) is acked exactly once, before any task logic on it. -/
theorem intake_ack_once_before_task_logic_witness :
    1 < ([msgHello, msgEmptyX1] : List RawMsg).length ∧
    (∃ pre rest, intakeTrace [msgHello, msgEmptyX1] = pre ++ IntakeEv.ack 1 :: rest ∧
      (∀ e ∈ pre, e.msgIdx ≠ 1) ∧ (∀ e ∈ rest, e ≠ IntakeEv.ack 1)) :=
  ⟨by decide, intake_ack_once_before_task_logic [msgHello, msgEmptyX1] 1 (by decide)⟩

/-- Claim C4: a consumed message whose resolved task text is empty or
whitespace-only is dropped: the intake trace contains no yield for it (so no
execution slot is ever taken for it), and the pipeline over that message
publishes no ResultRecord — for any execution engine and publish behavior. -/
theorem intake_drops_empty_task (msgs : List RawMsg) (idx : Nat) (cfg : KnightConfig)
    (exec : ParsedTask → Except String TaskResult) (pub : ResultRecord → Except String Unit)
    (h : idx < msgs.length)
    (he : isEmptyTask (parseMsg msgs[idx]) = true) :
    (∀ p : ParsedTask, IntakeEv.yieldTask idx p ∉ intakeTrace msgs) ∧
    intakeYields [msgs[idx]] = [] ∧
    pipelinePublishes cfg exec pub [msgs[idx]] = [] := by
  have hy : intakeYields [msgs[idx]] = [] := by
    simp [intakeYields, intakeTrace, intakeTraceFrom, processMsgEvents, processMsgRest, he]
  refine ⟨?_, hy, ?_⟩
  · intro p hp
    have hdecomp : msgs = msgs.take idx ++ msgs[idx] :: msgs.drop (idx + 1) := by
      conv_lhs => rw [← List.take_append_drop idx msgs]
      rw [List.drop_eq_getElem_cons h]
    have hlen : (msgs.take idx).length = idx := by
      simp only [List.length_take]
      omega
    rw [intakeTrace, hdecomp, intakeTraceFrom_append, hlen] at hp
    simp only [Nat.zero_add, intakeTraceFrom, List.mem_append] at hp
    rcases hp with h1 | h2 | h3
    · have hb := msgIdx_lt_of_mem_intakeTraceFrom h1
      simp only [IntakeEv.msgIdx, hlen] at hb
      omega
    · exact yield_notMem_processMsgEvents_of_empty he h2
    · have hb := le_msgIdx_of_mem_intakeTraceFrom h3
      simp only [IntakeEv.msgIdx] at hb
      omega
  · simp [pipelinePublishes, hy]

/-- Witness for C4 at spec Scenario 2: the payload
`{"task":"","task_id":"x1"}` resolves to an empty task, yields nothing, and
the pipeline publishes no result for it. -/
theorem intake_drops_empty_task_witness :
    isEmptyTask (parseMsg msgEmptyX1) = true ∧
    intakeYields [msgEmptyX1] = [] ∧
    pipelinePublishes sampleConfig execAlwaysOk pubAlwaysOk [msgEmptyX1] = [] := by
  have h := intake_drops_empty_task [msgEmptyX1] 0 sampleConfig execAlwaysOk pubAlwaysOk
    (by decide) (by decide)
  exact ⟨by decide, h.2.1, h.2.2⟩

/-! ### Executor adapter / result publisher -/

/-- Counterexample to claim C7 as stated ("never more than one publish
call"): at the concrete input where execution succeeds but the success-record
publish rejects, `processTask`'s `try` block throws on the awaited
`publishResult`, the `catch` block runs, and a second `publishResult` call is
made with a failure record — two publish calls for one yielded task. -/
theorem processTask_single_publish_counterexample :
    (publishCalls sampleConfig "t1" (Except.ok sampleResult) pubAlwaysRejects).length = 2 ∧
    ¬ (publishCalls sampleConfig "t1" (Except.ok sampleResult) pubAlwaysRejects).length = 1 :=
  ⟨rfl, by decide⟩

/-- Claim C7 (amended): every task yielded by Message Intake results in at
least one and at most two `publishResult` calls; exactly one — the success
record — when execution succeeds and that publish does not reject, exactly
one — the failure record — when execution fails, and exactly two (success
record, then failure record carrying the publish error) when execution
succeeds but the success-record publish rejects. Never zero. -/
theorem processTask_publish_call_count (cfg : KnightConfig) (taskId : String)
    (exec : Except String TaskResult) (pub : ResultRecord → Except String Unit) :
    (∀ e, exec = Except.error e →
      publishCalls cfg taskId exec pub = [failureRecord cfg taskId e]) ∧
    (∀ r, exec = Except.ok r → pub (successRecord cfg taskId r) = Except.ok () →
      publishCalls cfg taskId exec pub = [successRecord cfg taskId r]) ∧
    (∀ r e, exec = Except.ok r → pub (successRecord cfg taskId r) = Except.error e →
      publishCalls cfg taskId exec pub =
        [successRecord cfg taskId r, failureRecord cfg taskId e]) ∧
    1 ≤ (publishCalls cfg taskId exec pub).length ∧
    (publishCalls cfg taskId exec pub).length ≤ 2 := by
  refine ⟨?_, ?_, ?_, ?_, ?_⟩
  · rintro e rfl; rfl
  · rintro r rfl hp
    simp [publishCalls, processTaskRun, hp]
  · rintro r e rfl hp
    simp [publishCalls, processTaskRun, hp]
  · cases exec with
    | ok r =>
      cases hp : pub (successRecord cfg taskId r) <;>
        simp [publishCalls, processTaskRun, hp]
    | error e => simp [publishCalls, processTaskRun]
  · cases exec with
    | ok r =>
      cases hp : pub (successRecord cfg taskId r) <;>
        simp [publishCalls, processTaskRun, hp]
    | error e => simp [publishCalls, processTaskRun]

/-- Witness for the amended C7: with a successful execution and a publish
that succeeds, exactly one publish call is issued, carrying the success
record. -/
theorem processTask_publish_call_count_witness :
    pubAlwaysOk (successRecord sampleConfig "t7" sampleResult) = Except.ok () ∧
    publishCalls sampleConfig "t7" (Except.ok sampleResult) pubAlwaysOk =
      [successRecord sampleConfig "t7" sampleResult] ∧
    (publishCalls sampleConfig "t7" (Except.ok sampleResult) pubAlwaysOk).length = 1 :=
  ⟨rfl,
   (processTask_publish_call_count sampleConfig "t7" (Except.ok sampleResult)
      pubAlwaysOk).2.1 sampleResult rfl rfl,
   rfl⟩

/-- Claim C8: no exception ever escapes `processTask` to the scheduler (for
every execution outcome and publish behavior the body completes normally),
and for every execution that throws or rejects with message `e` the single
published record is the failure record — `success: false`,
`result` carrying the error message (as `"Task failed: " ++ e`), `cost: 0`,
`tokens: {input: 0, output: 0}`. -/
theorem processTask_no_escape_and_failure_shape (cfg : KnightConfig) (taskId : String)
    (exec : Except String TaskResult) (pub : ResultRecord → Except String Unit) :
    (∃ l, processTaskRun cfg taskId exec pub = Except.ok l) ∧
    (∀ e, exec = Except.error e →
      processTaskRun cfg taskId exec pub = Except.ok [failureRecord cfg taskId e] ∧
      (failureRecord cfg taskId e).success = false ∧
      (failureRecord cfg taskId e).result = "Task failed: " ++ e ∧
      (failureRecord cfg taskId e).cost = 0 ∧
      (failureRecord cfg taskId e).tokens_input = 0 ∧
      (failureRecord cfg taskId e).tokens_output = 0) := by
  constructor
  · cases exec with
    | ok r =>
      cases hp : pub (successRecord cfg taskId r) with
      | ok u =>
        exact ⟨[successRecord cfg taskId r], by simp [processTaskRun, hp]⟩
      | error e =>
        exact ⟨[successRecord cfg taskId r, failureRecord cfg taskId e],
          by simp [processTaskRun, hp]⟩
    | error e => exact ⟨_, rfl⟩
  · rintro e rfl
    exact ⟨rfl, rfl, rfl, rfl, rfl, rfl⟩

/-- Witness for C8: a concrete rejected execution produces exactly the failure
record, with `success: false`, the error message in `result`, zero cost and
zero tokens, and `processTask` completes normally. -/
theorem processTask_no_escape_and_failure_shape_witness :
    processTaskRun sampleConfig "t8" (Except.error "engine exploded") pubAlwaysOk =
      Except.ok [failureRecord sampleConfig "t8" "engine exploded"] ∧
    (failureRecord sampleConfig "t8" "engine exploded").success = false ∧
    (failureRecord sampleConfig "t8" "engine exploded").result =
      "Task failed: " ++ "engine exploded" ∧
    (failureRecord sampleConfig "t8" "engine exploded").cost = 0 := by
  have h := (processTask_no_escape_and_failure_shape sampleConfig "t8"
    (Except.error "engine exploded") pubAlwaysOk).2 "engine exploded" rfl
  exact ⟨h.1, h.2.1, h.2.2.1, h.2.2.2.1⟩

/-! ### Consumer reconciler -/

/-- Claim C5: when the existing durable consumer drifts from the desired spec
in any compared field — filter-subject set (compared order-insensitively, via
equality of the sorted lists), delivery policy, max-delivery count, or
acknowledgment-wait duration — one `subscribe` run deletes the existing
consumer and then creates a fresh one with the desired spec. -/
theorem reconciler_recreates_on_drift (cfg : KnightConfig) (ex : ConsumerConfigInfo)
    (h : sortStrings (existingFilterList ex) ≠ sortStrings cfg.subscribeTopics ∨
         ex.deliver_policy ≠ DeliverPolicy.new ∨
         ex.max_deliver ≠ 1 ∨
         ex.ack_wait ≠ (cfg.taskTimeoutMs + 60000) * 1000000) :
    subscribeOps cfg (some ex) =
      [NatsOp.deleteConsumer "fleet_a_tasks" (cfg.knightName ++ "-consumer"),
       NatsOp.addConsumer "fleet_a_tasks" (desiredConsumerConfig cfg)] := by
  have hrec : needsRecreate cfg ex = true := by
    simp only [needsRecreate, Bool.or_eq_true, bne_iff_ne]
    tauto
  simp [subscribeOps, hrec, desiredConsumerConfig]

/-- Witness for C5 at spec Scenario 3: an existing consumer with
`max_deliver = 5` (desired spec requires 1, all other fields matching) is
deleted and recreated. -/
theorem reconciler_recreates_on_drift_witness :
    staleConsumerInfo.max_deliver = 5 ∧
    staleConsumerInfo.max_deliver ≠ 1 ∧
    subscribeOps sampleConfig (some staleConsumerInfo) =
      [NatsOp.deleteConsumer "fleet_a_tasks" "galahad-consumer",
       NatsOp.addConsumer "fleet_a_tasks" (desiredConsumerConfig sampleConfig)] := by
  have h := reconciler_recreates_on_drift sampleConfig staleConsumerInfo
    (Or.inr (Or.inr (Or.inl (by decide))))
  exact ⟨rfl, by decide, h⟩

/-- Counterexample to claim C6 as stated ("the second application issues zero
create operations and zero delete operations"): with an unchanged desired
spec and no server drift, a second `subscribe` run still issues its
unconditional `jsm.consumers.add` call — one create operation, not zero. -/
theorem reconcile_second_apply_counterexample :
    ¬ ((subscribeOps sampleConfig
        (some (consumerInfoAfterAdd (desiredConsumerConfig sampleConfig)))).filter
          isAddOp).length = 0 := by
  have hrec : needsRecreate sampleConfig
      (consumerInfoAfterAdd (desiredConsumerConfig sampleConfig)) = false := by
    simp [needsRecreate, consumerInfoAfterAdd, desiredConsumerConfig, existingFilterList]
  simp [subscribeOps, hrec, isAddOp]

/-- Claim C6 (amended): reconciliation is idempotent up to the idempotent
create call — for every configuration, a second application against a server
holding exactly the previously-added spec issues zero delete operations (no
destructive server call), and exactly one (non-destructive, upsert-style)
`consumers.add` call with the unchanged desired spec. -/
theorem reconcile_second_apply_no_delete (cfg : KnightConfig) :
    ((subscribeOps cfg
        (some (consumerInfoAfterAdd (desiredConsumerConfig cfg)))).filter
          isDeleteOp) = [] ∧
    ((subscribeOps cfg
        (some (consumerInfoAfterAdd (desiredConsumerConfig cfg)))).filter
          isAddOp) = [NatsOp.addConsumer "fleet_a_tasks" (desiredConsumerConfig cfg)] := by
  have hrec : needsRecreate cfg (consumerInfoAfterAdd (desiredConsumerConfig cfg)) = false := by
    simp [needsRecreate, consumerInfoAfterAdd, desiredConsumerConfig, existingFilterList]
  constructor <;> simp [subscribeOps, hrec, isDeleteOp, isAddOp]

/-! ### Shutdown coordinator -/

/-- Behavior of the wait loop with sufficient fuel (the guard caps the poll
index below 60, so any fuel above `60 - t` is never exhausted): the loop
never rewinds, never passes poll 60, stops only when `activeCount` is zero or
the grace period has elapsed, and stops no later than the first poll at which
`activeCount` is zero. -/
theorem drainPoll_spec (a : Nat → Nat) :
    ∀ fuel t, 60 - t < fuel →
      t ≤ drainPoll a fuel t ∧
      (t ≤ 60 → drainPoll a fuel t ≤ 60) ∧
      (a (drainPoll a fuel t) = 0 ∨ 60 ≤ drainPoll a fuel t) ∧
      (∀ k, t ≤ k → a k = 0 → drainPoll a fuel t ≤ k) := by
  intro fuel
  induction fuel with
  | zero => intro t ht; exact absurd ht (Nat.not_lt_zero _)
  | succ f ih =>
    intro t ht
    simp only [drainPoll]
    split
    · rename_i hcond
      have h2 : 60 - (t + 1) < f := by omega
      obtain ⟨ih1, ih2, ih3, ih4⟩ := ih (t + 1) h2
      refine ⟨by omega, ?_, ih3, ?_⟩
      · intro _
        apply ih2
        have := hcond.2
        omega
      · intro k hk hak
        have hne : t ≠ k := fun heq => hcond.1 (heq ▸ hak)
        exact ih4 k (by omega) hak
    · rename_i hcond
      refine ⟨Nat.le_refl t, fun h => h, ?_, fun k hk _ => hk⟩
      rcases not_and_or.mp hcond with h0 | h0
      · exact Or.inl (not_not.mp h0)
      · right
        omega

/-- Claim C9: once a shutdown signal is received, the coordinator stops
admitting new messages (the message loop is a no-op on arrivals while
`shuttingDown` is set), and the wait loop runs until `activeCount` reaches
zero or the 60-second grace period elapses, whichever happens first: the loop
exits no later than poll 60 and no later than the first poll with
`activeCount = 0` (so if all active tasks finish early it proceeds without
waiting the full grace period), at exit either `activeCount` is zero or the
full grace period elapsed with a warning logged, the warning is logged
exactly when the grace period elapsed with `activeCount` still positive, and
absent the warning `activeCount` is zero at exit — termination proceeds in
every case. -/
theorem shutdown_waits_activeCount_or_grace (a : Nat → Nat) :
    (∀ (cfg : KnightConfig) (s : SchedState) (p : ParsedTask),
        s.shuttingDown = true → schedStep cfg s (SchedEvent.arrive p) = s) ∧
    shutdownExit a ≤ 60 ∧
    (∀ k, a k = 0 → shutdownExit a ≤ k) ∧
    (a (shutdownExit a) = 0 ∨ (shutdownExit a = 60 ∧ shutdownWarned a = true)) ∧
    (shutdownWarned a = true → shutdownExit a = 60 ∧ a 60 ≠ 0) ∧
    (shutdownWarned a = false → a (shutdownExit a) = 0) := by
  obtain ⟨h1, h2, h3, h4⟩ := drainPoll_spec a 61 0 (by omega)
  have hexit : shutdownExit a = drainPoll a 61 0 := rfl
  have h60 : shutdownExit a ≤ 60 := by rw [hexit]; exact h2 (Nat.zero_le 60)
  refine ⟨?_, h60, ?_, ?_, ?_, ?_⟩
  · intro cfg s p hsd
    simp [schedStep, hsd]
  · intro k hak
    rw [hexit]
    exact h4 k (Nat.zero_le k) hak
  · by_cases h0 : a (shutdownExit a) = 0
    · exact Or.inl h0
    · right
      constructor
      · rcases h3 with hz | hge
        · exact absurd hz h0
        · omega
      · simp only [shutdownWarned, decide_eq_true_eq]
        omega
  · intro hw
    simp only [shutdownWarned, decide_eq_true_eq] at hw
    have hne : a (shutdownExit a) ≠ 0 := by omega
    have h60eq : shutdownExit a = 60 := by
      rcases h3 with hz | hge
      · exact absurd hz hne
      · omega
    exact ⟨h60eq, h60eq ▸ hne⟩
  · intro hw
    simp only [shutdownWarned, decide_eq_false_iff_not, Nat.not_lt, Nat.le_zero] at hw
    exact hw

/-- Witness for C9 at spec Scenario 5: three active tasks at the shutdown
signal, all done by the 10th poll — the coordinator exits the wait loop by
poll 10 (well before the 60-second grace period) and logs no warning. -/
theorem shutdown_waits_activeCount_or_grace_witness :
    drainProfile 10 = 0 ∧
    shutdownExit drainProfile ≤ 10 ∧
    shutdownWarned drainProfile = false := by
  have h := shutdown_waits_activeCount_or_grace drainProfile
  exact ⟨by decide, h.2.2.1 10 (by decide), by decide⟩
